import Mathlib

/-!
Verification of the linkx stock-photo scraping / AI-prompt backend.

The definitions below are a shallow embedding, in Lean, of the TypeScript
source under `src/backend/src` (and the unnamed provider files).  Strings are
Lean `String`s, JavaScript regular expressions over literal domains are
substring tests on lower-cased text, JS `number`s that only ever hold small
decimal constants are modelled as exact rationals, and effectful steps
(HTTP fetches, the vendor APIs) are passed in as explicit oracle arguments so
that the surrounding control flow is a pure function of them.
-/

set_option maxRecDepth 100000

namespace LinkX

/-- Lower-case every character, modelling the `i` flag of the JavaScript
regular expressions used for platform matching. -/
def lowerStr (s : String) : String := String.mk (s.data.map Char.toLower)

/-- `startsWithList needle hay`: `needle` is a leading segment of `hay`. -/
def startsWithList : List Char → List Char → Bool
  | [], _ => true
  | _ :: _, [] => false
  | a :: as, b :: bs => a == b && startsWithList as bs

/-- `containsList needle hay`: `needle` occurs contiguously inside `hay`. -/
def containsList (needle : List Char) : List Char → Bool
  | [] => startsWithList needle []
  | b :: bs => startsWithList needle (b :: bs) || containsList needle bs

/-- `matchesPattern url pat` models `new RegExp(pat, 'i').test(url)` for the
literal domain patterns of `identifyPlatform` (`scraper-engine.ts:118-130`):
the pattern matches iff it occurs anywhere in the URL, case-insensitively. -/
def matchesPattern (url pat : String) : Bool :=
  containsList (lowerStr pat).data (lowerStr url).data

/-- The ordered platform-pattern table of
`WebScrapingEngine.identifyPlatform` (`scraper-engine.ts:118-130`).  Each
entry is a platform id together with the literal alternatives of its regex
(`mock` is the alternation `example.com|test.com|localhost`). -/
def platformPatterns : List (String × List String) :=
  [("shutterstock", ["shutterstock.com"]),
   ("freepik", ["freepik.com"]),
   ("adobe-stock", ["stock.adobe.com"]),
   ("getty-images", ["gettyimages.com"]),
   ("dreamstime", ["dreamstime.com"]),
   ("iconscout", ["iconscout.com"]),
   ("pond5", ["pond5.com"]),
   ("arabstock", ["arabstock.com"]),
   ("vecteezy", ["vecteezy.com"]),
   ("creative-fabrica", ["creativefabrica.com"]),
   ("mock", ["example.com", "test.com", "localhost"])]

/-- A URL matches a pattern list iff it matches one of the alternatives. -/
def patternListMatches (url : String) (pats : List String) : Bool :=
  pats.any (fun p => matchesPattern url p)

/-- The error message thrown at `scraper-engine.ts:138`: the regex sources
with `\.` unescaped, joined by `", "`. -/
def supportedDomainsMessage : String :=
  "Unsupported platform URL. Supported domains: shutterstock.com, freepik.com, stock.adobe.com, gettyimages.com, dreamstime.com, iconscout.com, pond5.com, arabstock.com, vecteezy.com, creativefabrica.com, example.com|test.com|localhost"

/-- `WebScrapingEngine.identifyPlatform` (`scraper-engine.ts:117-139`):
first pattern in table order that matches the URL wins; if none matches the
method throws the `supportedDomainsMessage` error. -/
def identifyPlatform (url : String) : Except String String :=
  match platformPatterns.find? (fun pp => patternListMatches url pp.2) with
  | some pp => Except.ok pp.1
  | none => Except.error supportedDomainsMessage

/-- The supported domains with their expected platform ids, as published by
`getSupportedPlatforms` (`scraper-engine.ts:185-199`), extended with the two
extra `mock` alternatives of the pattern table. -/
def domainPlatformTable : List (String × String) :=
  [("shutterstock.com", "shutterstock"),
   ("freepik.com", "freepik"),
   ("stock.adobe.com", "adobe-stock"),
   ("gettyimages.com", "getty-images"),
   ("dreamstime.com", "dreamstime"),
   ("iconscout.com", "iconscout"),
   ("pond5.com", "pond5"),
   ("arabstock.com", "arabstock"),
   ("vecteezy.com", "vecteezy"),
   ("creativefabrica.com", "creative-fabrica"),
   ("example.com", "mock"),
   ("test.com", "mock"),
   ("localhost", "mock")]

/-- Build an https URL from a host and a path. -/
def mkHttpsUrl (host path : String) : String := "https://" ++ host ++ path

/-! ## Base scraper: text cleaning and selector extraction
(`base-scraper.ts`) -/

/-- The JavaScript `\s` whitespace class, restricted to the characters that
occur in scraped text (ASCII whitespace and NBSP).  The `cleanText`
properties proved below do not depend on the exact extent of the class. -/
def jsSpace (c : Char) : Bool :=
  c == ' ' || c == '\t' || c == '\n' || c == '\r' ||
  c == '\x0b' || c == '\x0c' || c == '\u00a0'

/-- The JavaScript `\w` word class `[A-Za-z0-9_]`. -/
def isWordChar (c : Char) : Bool := c.isAlphanum || c == '_'

/-- One pass of `text.replace(/\s+/g, ' ')` (`base-scraper.ts:148`): every
maximal whitespace run becomes a single space.  The flag records whether the
previous character was whitespace (i.e. we are inside a run). -/
def collapseWsAux : Bool → List Char → List Char
  | _, [] => []
  | prevWs, c :: rest =>
    if jsSpace c then
      if prevWs then collapseWsAux true rest
      else ' ' :: collapseWsAux true rest
    else c :: collapseWsAux false rest

/-- `text.replace(/\s+/g, ' ')`. -/
def collapseWs (l : List Char) : List Char := collapseWsAux false l

/-- `text.replace(/^\W+|\W+$/g, '')` (`base-scraper.ts:149`): remove the
leading and the trailing run of non-word characters. -/
def stripEnds (l : List Char) : List Char :=
  ((l.dropWhile (fun c => !isWordChar c)).reverse.dropWhile
    (fun c => !isWordChar c)).reverse

/-- JavaScript `String.prototype.trim`, over the modelled whitespace class. -/
def jsTrim (l : List Char) : List Char :=
  ((l.dropWhile jsSpace).reverse.dropWhile jsSpace).reverse

/-- `PlatformScraper.cleanText` (`base-scraper.ts:146-151`): collapse
whitespace runs, strip non-word ends, trim. -/
def cleanText (s : String) : String :=
  String.mk (jsTrim (stripEnds (collapseWs s.data)))

/-- Abstraction of a non-empty cheerio selection `$(selector)`: `content` is
the `content` attribute of the first matched element (`none` when absent),
`text` the combined text of the matched elements. -/
structure Elem where
  content : Option String
  text : String

/-- The value the loop body of `extractWithSelectors` reads from a non-empty
selection: `element.attr('content') || element.text().trim()`
(`base-scraper.ts:106`).  The JS `||` falls through both when the `content`
attribute is absent and when it is the empty string. -/
def elemValue (e : Elem) : String :=
  match e.content with
  | some c => if c = "" then String.mk (jsTrim e.text.data) else c
  | none => String.mk (jsTrim e.text.data)

/-- A parsed document, abstracted to the selector level: `doc s` is `none`
when `$(s)` matches nothing (`element.length === 0`), otherwise the matched
selection. -/
def Doc := String → Option Elem

/-- `PlatformScraper.extractWithSelectors` (`base-scraper.ts:102-111`):
walk the selector list in order and return the first non-empty content. -/
def extractWithSelectors (doc : Doc) : List String → String
  | [] => ""
  | s :: rest =>
    match doc s with
    | some e =>
      if elemValue e = "" then extractWithSelectors doc rest else elemValue e
    | none => extractWithSelectors doc rest

/-- A document at the multi-element level: `docA s` is the list of text
contents of the elements matched by `$(s)`, in DOM order. -/
def DocA := String → List String

/-- The loop body of `extractArrayWithSelectors` (`base-scraper.ts:117-120`):
`const text = $(el).text().trim(); if (text && !results.includes(text))
results.push(text)`. -/
def pushTag (results : List String) (t : String) : List String :=
  if String.mk (jsTrim t.data) ≠ "" ∧ String.mk (jsTrim t.data) ∉ results
  then results ++ [String.mk (jsTrim t.data)] else results

/-- `PlatformScraper.extractArrayWithSelectors` (`base-scraper.ts:113-124`). -/
def extractArrayWithSelectors (docA : DocA) (selectors : List String) : List String :=
  selectors.foldl (fun results s => (docA s).foldl pushTag results) []

/-- The `tags` field computed by `extractGenericMetadata`
(`base-scraper.ts:186-188`): the accumulated array, mapped through
`cleanText`, keeping only non-empty results. -/
def tagsField (docA : DocA) (selectors : List String) : List String :=
  ((extractArrayWithSelectors docA selectors).map cleanText).filter
    (fun t => t.length != 0)

/-- The value a single selector yields in `extractWithSelectors`, or `""`
when it matches nothing. -/
def selectorValue (doc : Doc) (s : String) : String :=
  match doc s with
  | some e => elemValue e
  | none => ""

/-- No two consecutive characters are both whitespace. -/
def noAdjacentWs (l : List Char) : Prop :=
  List.Chain' (fun a b => ¬(jsSpace a = true ∧ jsSpace b = true)) l

/-- A small document fixture for C2: `og` has an empty `content` attribute
and padded text, `h1` has a non-empty `content` attribute. -/
def sampleDoc : Doc := fun s =>
  if s = "og" then some ⟨some "", "  first  value "⟩
  else if s = "h1" then some ⟨some "Title", "ignored"⟩
  else none

/-- A tag fixture for C3 whose two raw texts are distinct but clean to the
same string. -/
def dupTagDoc : DocA := fun s => if s = ".tag" then ["a!", "a"] else []

/-- The accumulator invariant of `extractArrayWithSelectors`: no duplicates
and no empty entries. -/
def TagAccInv (r : List String) : Prop := r.Nodup ∧ ∀ t ∈ r, t ≠ ""

/-- A tag fixture for the C3 witness: the duplicate raw text is dropped and
cleaning introduces no collision. -/
def cleanTagDoc : DocA :=
  fun s => if s = ".tag" then [" sunset ", "beach", "sunset"] else []

/-! ## Scraping engine (`scraper-engine.ts`) -/

/-- The metadata record produced by a platform scraper
(`interfaces/types.ts:1-13`), restricted to the fields the engine reads.
Optional string fields that the scrapers populate with `''` when absent are
plain strings; the optional `imageBase64` is an `Option`. -/
structure ImageMetadataM where
  title : String
  description : String
  tags : List String
  imageUrl : String
  imageBase64 : Option String
  category : String
  stockId : String
  platform : String

/-- The result envelope of `scrapeStockURL` (`interfaces/types.ts:15-20`). -/
structure ScrapingResult where
  success : Bool
  data : Option ImageMetadataM
  error : Option String
  processingTime : Nat

/-- The keys of the `platformScrapers` map (`scraper-engine.ts:35-47`). -/
def platformScrapersKeys : List String :=
  ["shutterstock", "freepik", "adobe-stock", "getty-images", "dreamstime",
   "iconscout", "pond5", "arabstock", "vecteezy", "creative-fabrica", "mock"]

/-- The axios `maxContentLength` of the image download
(`scraper-engine.ts:148`): 50MB. -/
def maxImageContentLength : Nat := 50 * 1024 * 1024

/-- `WebScrapingEngine.downloadAndConvertImage` (`scraper-engine.ts:141-183`)
with the effectful parts as oracles: `fetchSize` is the size of the response
body the server would deliver and `transcoded` the base64 JPEG the sharp
pipeline would produce from it (or its error).  axios rejects the download
once the body exceeds `maxContentLength`; every error is re-thrown wrapped
in the `Failed to download or process image: ` envelope. -/
def downloadAndConvertImage (fetchSize : Nat) (transcoded : Except String String) :
    Except String String :=
  if maxImageContentLength < fetchSize then
    Except.error
      "Failed to download or process image: maxContentLength size of 52428800 exceeded"
  else
    match transcoded with
    | Except.ok b64 => Except.ok b64
    | Except.error e => Except.error ("Failed to download or process image: " ++ e)

/-- Step 4 of `scrapeStockURL` (`scraper-engine.ts:76-85`): when an image
URL was found, attempt the download and attach the base64 result; a
download failure is logged and leaves the metadata unchanged. -/
def attachImage (download : String → Except String String) (md : ImageMetadataM) :
    ImageMetadataM :=
  if md.imageUrl ≠ "" then
    match download md.imageUrl with
    | Except.ok b64 => { md with imageBase64 := some b64 }
    | Except.error _ => md
  else md

/-- The error thrown at `scraper-engine.ts:72` when neither a title nor an
image URL was extracted. -/
def extractionFailureMessage : String :=
  "Failed to extract meaningful data from the URL. Please check if the URL is valid and accessible."

/-- `WebScrapingEngine.scrapeStockURL` (`scraper-engine.ts:49-106`).  The
effectful sub-steps are oracles: `urlValid` is the outcome of the
`isValidURL` check on `url`, `extract` is the platform scraper's
`extractMetadata` keyed by platform id, `download` the outcome of the image
download for a given image URL, and `elapsed` the measured wall-clock time.
Every thrown error is caught at the boundary and becomes a
`success := false` envelope. -/
def scrapeStockURL (url : String) (urlValid : Bool)
    (extract : String → Except String ImageMetadataM)
    (download : String → Except String String) (elapsed : Nat) : ScrapingResult :=
  if urlValid = false then
    ⟨false, none, some "Invalid URL provided", elapsed⟩
  else
    match identifyPlatform url with
    | Except.error e => ⟨false, none, some e, elapsed⟩
    | Except.ok platform =>
      if platformScrapersKeys.contains platform = false then
        ⟨false, none,
          some ("Unsupported platform: " ++ platform ++ ". Supported platforms: " ++
            String.intercalate ", " platformScrapersKeys), elapsed⟩
      else
        match extract platform with
        | Except.error e => ⟨false, none, some e, elapsed⟩
        | Except.ok md =>
          if md.title = "" ∧ md.imageUrl = "" then
            ⟨false, none, some extractionFailureMessage, elapsed⟩
          else
            ⟨true, some (attachImage download md), none, elapsed⟩

/-- A metadata fixture with no extractable content. -/
def mdEmpty : ImageMetadataM := ⟨"", "", [], "", none, "", "", "mock"⟩

/-- A metadata fixture with a title and an image URL but no base64 yet. -/
def mdWithImage : ImageMetadataM :=
  ⟨"Sunset over sea", "desc", ["sunset"], "https://cdn.example.com/i.jpg",
   none, "", "1234567", "mock"⟩

/-! ## AI provider manager (`ai-provider` file) and middleware validation
(`middleware/validation.ts`) -/

/-- JavaScript `String.prototype.trim` on a `String`. -/
def jsStrTrim (s : String) : String := String.mk (jsTrim s.data)

/-- The keys of the `providers` map of `AIProviderManager` (constructor of
the ai-provider file, lines 495-501). -/
def registeredProviders : List String := ["openai", "openai-fast", "gemini", "claude"]

/-- The providers accepted by the Joi request schemas
(`validation.ts:16-23`). -/
def validateApiKeySchemaProviders : List String :=
  ["openai", "openai-fast", "gemini", "claude"]

/-- The providers that have an entry in the key-format `patterns` table of
the middleware `validateApiKey` (`validation.ts:167-171`). -/
def formatPatternProviders : List String := ["openai", "gemini", "claude"]

/-- Character class `[a-zA-Z0-9\-_\.]` of the OpenAI key regex
(`validation.ts:168`). -/
def openaiKeyChar (c : Char) : Bool := c.isAlphanum || c == '-' || c == '_' || c == '.'

/-- Character class `[A-Za-z0-9_-]` of the Gemini and Claude key regexes
(`validation.ts:169-170`). -/
def vendorKeyChar (c : Char) : Bool := c.isAlphanum || c == '_' || c == '-'

/-- `/^sk-[a-zA-Z0-9\-_\.]{10,}$/` (`validation.ts:168`). -/
def openaiKeyFormat (s : String) : Bool :=
  startsWithList "sk-".data s.data && decide (10 ≤ (s.data.drop 3).length) &&
    (s.data.drop 3).all openaiKeyChar

/-- `/^[A-Za-z0-9_-]{10,}$/` (`validation.ts:169`). -/
def geminiKeyFormat (s : String) : Bool :=
  decide (10 ≤ s.data.length) && s.data.all vendorKeyChar

/-- `/^sk-ant-[A-Za-z0-9_-]{10,}$/` (`validation.ts:170`). -/
def claudeKeyFormat (s : String) : Bool :=
  startsWithList "sk-ant-".data s.data && decide (10 ≤ (s.data.drop 7).length) &&
    (s.data.drop 7).all vendorKeyChar

/-- The middleware `validateApiKey` (`validation.ts:162-180`): blank keys
fail; otherwise the provider's key-shape regex is applied to the trimmed
key; a provider without a pattern entry fails. -/
def validateApiKeyFormat (provider apiKey : String) : Bool :=
  if jsStrTrim apiKey = "" then false
  else
    match provider with
    | "openai" => openaiKeyFormat (jsStrTrim apiKey)
    | "gemini" => geminiKeyFormat (jsStrTrim apiKey)
    | "claude" => claudeKeyFormat (jsStrTrim apiKey)
    | _ => false

/-- `AIAnalysisResponse` (`interfaces/types.ts:36-50`), restricted to the
fields `generatePrompt` populates; the failure branch omits `variations`,
modelled as `[]`. -/
structure AIAnalysisResponseM where
  success : Bool
  prompt : String
  variations : List String
  confidence : ℚ
  processingTime : Nat
  error : Option String

/-- What an adapter's `analyzeAndGeneratePrompt` resolves to: a prompt,
variations and a confidence, or a thrown error message. -/
def AdapterOutcome := Except String (String × List String × ℚ)

/-- `AIProviderManager.generatePrompt` (ai-provider file, lines 510-560).
The adapter call is an oracle; the second component of the result records
whether the adapter was dispatched (i.e. whether any vendor HTTP call was
attempted).  Every thrown error is caught and becomes a `success := false`
envelope carrying the elapsed time, so the method never throws. -/
def generatePromptM (provider apiKey imageBase64 : String)
    (adapter : AdapterOutcome) (elapsed : Nat) : AIAnalysisResponseM × Bool :=
  if registeredProviders.contains provider = false then
    (⟨false, "", [], 0, elapsed,
      some ("Unsupported AI provider: " ++ provider ++ ". Supported providers: " ++
        String.intercalate ", " registeredProviders)⟩, false)
  else if jsStrTrim apiKey = "" then
    (⟨false, "", [], 0, elapsed, some "API key is required"⟩, false)
  else if imageBase64 = "" then
    (⟨false, "", [], 0, elapsed, some "Image data is required for AI analysis"⟩, false)
  else
    match adapter with
    | Except.ok r => (⟨true, r.1, r.2.1, r.2.2, elapsed, none⟩, true)
    | Except.error e => (⟨false, "", [], 0, elapsed, some e⟩, true)

/-- What an adapter's network `validateApiKey` resolves to (`details`
omitted). -/
structure AdapterValidation where
  isValid : Bool
  error : Option String

/-- The manager's validation envelope (ai-provider file, lines 615-669),
`details` omitted. -/
structure ManagerValidation where
  success : Bool
  isValid : Bool
  error : Option String
  provider : String

/-- `AIProviderManager.validateApiKey` (ai-provider file, lines 615-669):
provider lookup, then the middleware format check, then — only if the
format passes — the adapter's network validation (an oracle).  The second
component records whether the network call was made. -/
def managerValidateApiKey (provider apiKey : String)
    (adapterValidate : AdapterValidation) : ManagerValidation × Bool :=
  if registeredProviders.contains provider = false then
    (⟨false, false,
      some ("Unsupported AI provider: " ++ provider ++ ". Supported providers: " ++
        String.intercalate ", " registeredProviders), provider⟩, false)
  else if validateApiKeyFormat provider apiKey = false then
    (⟨true, false, some ("Invalid " ++ provider ++ " API key format"), provider⟩, false)
  else
    (⟨true, adapterValidate.isValid, adapterValidate.error, provider⟩, true)

/-- The error body of an OpenAI HTTP error response. -/
structure OpenAIApiError where
  code : Option String
  message : Option String

/-- The vendor outcome of the OpenAI validation probe: HTTP 2xx, an HTTP
error carrying an error body, or a network error with no response. -/
inductive OpenAIValidationOutcome where
  | ok
  | httpError (e : OpenAIApiError)
  | netError (msg : String)

/-- `OpenAIProvider.validateApiKey` (unnamed provider file, lines 94-176):
the mapping from the vendor outcome to `{isValid, error}` (`details`
omitted).  An unrecognised error code falls back to the response's own
message, or to `OpenAI API error` when that is missing or empty. -/
def openaiValidateApiKey : OpenAIValidationOutcome → AdapterValidation
  | OpenAIValidationOutcome.ok => ⟨true, none⟩
  | OpenAIValidationOutcome.httpError e =>
    if e.code = some "invalid_api_key" then ⟨false, some "Invalid OpenAI API key"⟩
    else if e.code = some "insufficient_quota" then ⟨false, some "OpenAI API quota exceeded"⟩
    else if e.code = some "model_not_found" then ⟨false, some "Model access denied"⟩
    else ⟨false, some (match e.message with
      | some m => if m = "" then "OpenAI API error" else m
      | none => "OpenAI API error")⟩
  | OpenAIValidationOutcome.netError _ =>
    ⟨false, some "Network error or timeout while validating API key"⟩

/-! ## Provider adapters: variations and confidence
(unnamed provider files) -/

/-- One choice of an OpenAI chat-completion response; `content` is the
message content, `finish_reason` the reported finish reason. -/
structure OpenAIChoice where
  content : Option String
  finish_reason : Option String

/-- An OpenAI chat-completion response body, restricted to what
`calculateConfidence` reads. -/
structure OpenAIResponseData where
  choices : List OpenAIChoice

/-- `OpenAIProvider.calculateConfidence` (unnamed provider file, lines
229-252): base 0.7, +0.2 or +0.1 for a healthy prompt length, +0.1 for a
clean finish, capped at 1. -/
def openaiCalculateConfidence (data : OpenAIResponseData) : ℚ :=
  match data.choices with
  | [] => 0
  | choice :: _ =>
    let promptLength : Nat := (choice.content.map String.length).getD 0
    let withLen : ℚ :=
      if 100 ≤ promptLength ∧ promptLength ≤ 300 then 7/10 + 2/10
      else if 50 ≤ promptLength ∧ promptLength < 500 then 7/10 + 1/10
      else 7/10
    let withStop : ℚ :=
      if choice.finish_reason = some "stop" then withLen + 1/10 else withLen
    min withStop 1

/-- The list post-processing of `OpenAIProvider.generateVariations`
(unnamed provider file, lines 213-222): split the follow-up reply on
`"---"`, trim each piece, keep pieces longer than 10 characters, return at
most 2; an absent or empty reply (and the catch branch) yields `[]`. -/
def openaiVariations (content : Option String) : List String :=
  match content with
  | none => []
  | some text =>
    if text = "" then []
    else
      (((text.splitOn "---").map (fun v => jsStrTrim v)).filter
        (fun v => decide (10 < v.length))).take 2

/-- `OpenAIFastProvider.calculateConfidence`
(`openai-fast-provider.ts:172-175`). -/
def openaiFastCalculateConfidence (data : OpenAIResponseData) : ℚ :=
  match data.choices with
  | [] => 0
  | choice :: _ => if choice.finish_reason = some "stop" then 8/10 else 6/10

/-- `OpenAIFastProvider.generateQuickVariation`
(`openai-fast-provider.ts:141-170`): one trimmed variation when the probe
reply has non-empty content, none otherwise. -/
def openaiFastVariations (content : Option String) : List String :=
  match content with
  | none => []
  | some text => if text = "" then [] else [jsStrTrim text]

/-- A Gemini candidate, restricted to what `calculateConfidence` reads:
the probabilities of the safety ratings, the finish reason and the text of
the first content part. -/
structure GeminiCandidate where
  safetyRatings : List String
  finishReason : Option String
  contentText : Option String

/-- `GeminiProvider.calculateConfidence` (gemini provider file, lines
394-421): base 0.75, −0.1 per HIGH/MEDIUM safety rating, ±adjustment for
the finish reason, +0.1 for a healthy content length, clamped to [0, 1]. -/
def geminiCalculateConfidence (cand : GeminiCandidate) : ℚ :=
  let afterSafety : ℚ := cand.safetyRatings.foldl
    (fun acc r => if r = "HIGH" ∨ r = "MEDIUM" then acc - 1/10 else acc) (3/4)
  let afterFinish : ℚ :=
    if cand.finishReason = some "STOP" then afterSafety + 3/20
    else if cand.finishReason = some "MAX_TOKENS" then afterSafety - 1/20
    else afterSafety
  let contentLength : Nat := (cand.contentText.map String.length).getD 0
  let afterLen : ℚ :=
    if 100 ≤ contentLength ∧ contentLength ≤ 300 then afterFinish + 1/10
    else afterFinish
  min (max afterLen 0) 1

/-- `GeminiProvider` returns no variations (gemini provider file, line
264). -/
def geminiVariations : List String := []

/-- The token usage block of a Claude response. -/
structure ClaudeUsage where
  input_tokens : Option Nat
  output_tokens : Option Nat

/-- A Claude response body, restricted to what `calculateConfidence`
reads. -/
structure ClaudeResponseData where
  stop_reason : Option String
  contentText : Option String
  usage : Option ClaudeUsage

/-- `ClaudeProvider.calculateConfidence` (claude provider file, lines
325-356): base 0.8, ±adjustment for the stop reason, ±adjustment for the
content length, +0.05 for reasonable output-token usage, clamped to
[0, 1]. -/
def claudeCalculateConfidence (data : ClaudeResponseData) : ℚ :=
  let afterStop : ℚ :=
    if data.stop_reason = some "end_turn" then 8/10 + 1/10
    else if data.stop_reason = some "max_tokens" then 8/10 - 1/10
    else 8/10
  let contentLength : Nat := (data.contentText.map String.length).getD 0
  let afterLen : ℚ :=
    if 100 ≤ contentLength ∧ contentLength ≤ 300 then afterStop + 1/10
    else if contentLength < 50 then afterStop - 2/10
    else afterStop
  let afterUsage : ℚ :=
    match data.usage with
    | some u =>
      if 50 ≤ u.output_tokens.getD 0 ∧ u.output_tokens.getD 0 ≤ 500 then afterLen + 1/20
      else afterLen
    | none => afterLen
  min (max afterUsage 0) 1

/-- `ClaudeProvider` returns no variations (claude provider file, line
185). -/
def claudeVariations : List String := []

/-! ## Theorems -/


example : identifyPlatform "https://www.shutterstock.com/image-photo/x-12345" =
    Except.ok "shutterstock" := by rfl

example : identifyPlatform "https://gettyimages.com/shutterstock.com" =
    Except.ok "shutterstock" := by rfl

example : identifyPlatform "https://foo.org/bar" =
    Except.error supportedDomainsMessage := by rfl

/-- C1 (counterexample): the claim "for every URL whose host is a supported
platform domain, `identifyPlatform` returns the expected platform id" fails:
the URL `https://gettyimages.com/shutterstock.com` has the supported host
`gettyimages.com` (whose expected id is `getty-images`), yet
`identifyPlatform` returns `shutterstock`, because matching is a substring
test on the whole URL in fixed table order and `shutterstock.com` occurs in
the path. -/
theorem C1_counterexample :
    ("gettyimages.com", "getty-images") ∈ domainPlatformTable ∧
    identifyPlatform (mkHttpsUrl "gettyimages.com" "/shutterstock.com") =
      Except.ok "shutterstock" ∧
    ("shutterstock" : String) ≠ "getty-images" := by
  refine ⟨by simp [domainPlatformTable], by rfl, by decide⟩

/-- C1 (amended): `identifyPlatform` tests each platform's domain pattern
against the whole URL string, case-insensitively, in fixed table order, and
the first match wins.  Consequently: (1) a URL matched by no pattern fails
with the error message enumerating all known domains; (2) a successful
identification always corresponds to some matching pattern of the returned
platform; (3) canonical URLs `https://www.<domain>/photo/123` of every
supported domain resolve to the expected platform id; (4) the failure
message mentions every supported domain. -/
theorem C1_identifyPlatform_amended :
    (∀ url : String,
        (platformPatterns.all fun pp => !patternListMatches url pp.2) = true →
        identifyPlatform url = Except.error supportedDomainsMessage) ∧
    (∀ url p, identifyPlatform url = Except.ok p →
        ∃ pats, (p, pats) ∈ platformPatterns ∧ patternListMatches url pats = true) ∧
    (∀ dp : String × String, dp ∈ domainPlatformTable →
        identifyPlatform (mkHttpsUrl ("www." ++ dp.1) "/photo/123") = Except.ok dp.2) ∧
    (∀ dp : String × String, dp ∈ domainPlatformTable →
        matchesPattern supportedDomainsMessage dp.1 = true) := by
  refine ⟨?_, ?_, ?_, ?_⟩
  · intro url h
    have hnone : platformPatterns.find? (fun pp => patternListMatches url pp.2) = none := by
      rw [List.find?_eq_none]
      intro pp hpp
      have hb := List.all_eq_true.mp h pp hpp
      simp only [Bool.not_eq_true'] at hb
      simp [hb]
    unfold identifyPlatform
    rw [hnone]
  · intro url p h
    unfold identifyPlatform at h
    cases hf : platformPatterns.find? (fun pp => patternListMatches url pp.2) with
    | none => rw [hf] at h; cases h
    | some pp =>
      rw [hf] at h
      injection h with h
      subst h
      have hp := List.find?_some hf
      refine ⟨pp.2, ?_, hp⟩
      have := List.mem_of_find?_eq_some hf
      simpa using this
  · intro dp hdp
    fin_cases hdp <;> rfl
  · intro dp hdp
    fin_cases hdp <;> rfl

/-- C1 witness: the amended theorem applied at concrete inputs — an
unsupported URL fails with the domain-listing message, and a canonical
Shutterstock URL resolves to `shutterstock`. -/
theorem C1_identifyPlatform_amended_witness :
    identifyPlatform "https://foo.org/bar" = Except.error supportedDomainsMessage ∧
    identifyPlatform (mkHttpsUrl ("www." ++ "shutterstock.com") "/photo/123") =
      Except.ok "shutterstock" :=
  ⟨C1_identifyPlatform_amended.1 "https://foo.org/bar" (by rfl),
   C1_identifyPlatform_amended.2.2.1 ("shutterstock.com", "shutterstock")
     (by simp [domainPlatformTable])⟩

example : cleanText "  --hello,   world!?  " = "hello, world" := by rfl

example : cleanText "" = "" := by rfl

example : cleanText "!!!" = "" := by rfl

/-- C2: scalar-field extraction returns the value of the first selector in
the list that yields non-empty content and ignores all later selectors,
returning the empty string when no selector yields non-empty content; the
per-selector value prefers a non-empty explicit `content` attribute and
falls back to the selection's trimmed text. -/
theorem C2_extract_first_nonempty :
    (∀ (doc : Doc) (selectors : List String),
        extractWithSelectors doc selectors =
          ((selectors.map (selectorValue doc)).filter (fun v => v != "")).headD "") ∧
    (∀ (e : Elem) (c : String), e.content = some c → c ≠ "" → elemValue e = c) ∧
    (∀ (e : Elem), (e.content = none ∨ e.content = some "") →
        elemValue e = String.mk (jsTrim e.text.data)) := by
  refine ⟨?_, ?_, ?_⟩
  · intro doc selectors
    induction selectors with
    | nil => rfl
    | cons s rest ih =>
      simp only [extractWithSelectors, List.map_cons, List.filter_cons, selectorValue]
      cases h : doc s with
      | none => simpa using ih
      | some e =>
        by_cases he : elemValue e = ""
        · simpa [he] using ih
        · simp [he]
  · intro e c hc hne
    simp [elemValue, hc, hne]
  · intro e h
    rcases h with h | h <;> simp [elemValue, h]

/-- C2 witness: on the fixture, a selector matching nothing is skipped, the
next one yields its trimmed text (its empty `content` attribute falls
through), and the later matching selector is ignored; attribute preference
is exercised on the `h1` element. -/
theorem C2_extract_first_nonempty_witness :
    extractWithSelectors sampleDoc ["missing", "og", "h1"] = "first  value" ∧
    elemValue ⟨some "Title", "ignored"⟩ = "Title" := by
  constructor
  · rw [C2_extract_first_nonempty.1 sampleDoc ["missing", "og", "h1"]]
    rfl
  · exact C2_extract_first_nonempty.2.1 ⟨some "Title", "ignored"⟩ "Title" rfl (by decide)

/-- C3 (counterexample): the final `tags` field of the extracted metadata
can contain duplicates: the raw texts `"a!"` and `"a"` are distinct, so both
survive the dedup inside `extractArrayWithSelectors`, but the `cleanText`
pass that `extractGenericMetadata` applies afterwards maps both to `"a"`,
and deduplication is not re-applied after cleaning. -/
theorem C3_counterexample :
    tagsField dupTagDoc [".tag"] = ["a", "a"] ∧
    ¬ (tagsField dupTagDoc [".tag"]).Nodup := by
  refine ⟨by rfl, ?_⟩
  intro h
  rw [show tagsField dupTagDoc [".tag"] = ["a", "a"] from rfl] at h
  simp at h

lemma pushTag_inv {r : List String} (h : TagAccInv r) (t : String) :
    TagAccInv (pushTag r t) := by
  unfold pushTag
  split_ifs with hc
  · constructor
    · exact List.Nodup.append h.1 (List.nodup_singleton _)
        (by intro a ha hb; simp only [List.mem_singleton] at hb; subst hb; exact hc.2 ha)
    · intro u hu
      rcases List.mem_append.mp hu with hu | hu
      · exact h.2 u hu
      · simp only [List.mem_singleton] at hu; subst hu; exact hc.1
  · exact h

lemma foldl_pushTag_inv : ∀ (ts : List String) (r : List String),
    TagAccInv r → TagAccInv (ts.foldl pushTag r)
  | [], _, h => h
  | t :: ts, _, h => foldl_pushTag_inv ts _ (pushTag_inv h t)

lemma foldl_sel_inv (docA : DocA) : ∀ (sels : List String) (r : List String),
    TagAccInv r →
    TagAccInv (sels.foldl (fun results s => (docA s).foldl pushTag results) r)
  | [], _, h => h
  | s :: sels, r, h => foldl_sel_inv docA sels _ (foldl_pushTag_inv (docA s) r h)

/-- C3 (amended): the raw accumulation done by `extractArrayWithSelectors`
is deduplicated by exact string equality, keeping the first occurrence,
and skips empty texts — so it never contains duplicates; the final `tags`
field additionally maps each entry through `cleanText` and filters empties,
and it is duplicate-free whenever that `cleanText` pass introduces no
collision (which the counterexample shows it can). -/
theorem C3_tags_dedup_amended :
    (∀ (docA : DocA) (selectors : List String),
        (extractArrayWithSelectors docA selectors).Nodup ∧
        ∀ t ∈ extractArrayWithSelectors docA selectors, t ≠ "") ∧
    (∀ (docA : DocA) (selectors : List String),
        ((extractArrayWithSelectors docA selectors).map cleanText).Nodup →
        (tagsField docA selectors).Nodup) := by
  constructor
  · intro docA selectors
    exact foldl_sel_inv docA selectors [] ⟨List.nodup_nil, by intro t ht; cases ht⟩
  · intro docA selectors h
    exact List.Nodup.filter _ h

/-- C3 witness: the amended theorem applied to the collision-free fixture —
the raw accumulation is `["sunset", "beach"]` with no duplicates, and the
final `tags` field is duplicate-free as well. -/
theorem C3_tags_dedup_amended_witness :
    extractArrayWithSelectors cleanTagDoc [".tag"] = ["sunset", "beach"] ∧
    (extractArrayWithSelectors cleanTagDoc [".tag"]).Nodup ∧
    (tagsField cleanTagDoc [".tag"]).Nodup := by
  refine ⟨by rfl, (C3_tags_dedup_amended.1 cleanTagDoc [".tag"]).1, ?_⟩
  exact C3_tags_dedup_amended.2 cleanTagDoc [".tag"] (by decide)

/-! ### Structural lemmas about `cleanText` -/

lemma head_dropWhile (p : Char → Bool) :
    ∀ (l : List Char) (c : Char), (l.dropWhile p).head? = some c → p c = false := by
  intro l
  induction l with
  | nil => intro c h; cases h
  | cons a t ih =>
    intro c h
    rw [List.dropWhile_cons] at h
    by_cases hp : p a = true
    · rw [if_pos hp] at h; exact ih c h
    · rw [if_neg hp] at h
      have ha : a = c := by simpa using h
      subst ha
      simpa using hp

lemma dropWhile_of_head_false (p : Char → Bool) (l : List Char)
    (h : ∀ c, l.head? = some c → p c = false) : l.dropWhile p = l := by
  cases l with
  | nil => rfl
  | cons a t =>
    have ha : p a = false := h a rfl
    rw [List.dropWhile_cons, if_neg (by simp [ha])]

lemma mem_of_mem_dropWhile (p : Char → Bool) :
    ∀ (l : List Char) (c : Char), c ∈ l.dropWhile p → c ∈ l := by
  intro l
  induction l with
  | nil => intro c h; exact h
  | cons a t ih =>
    intro c h
    rw [List.dropWhile_cons] at h
    by_cases hp : p a = true
    · rw [if_pos hp] at h; exact List.mem_cons_of_mem a (ih c h)
    · rw [if_neg hp] at h; exact h

lemma getLast_dropWhile (p : Char → Bool) :
    ∀ (l : List Char), l.dropWhile p ≠ [] →
      (l.dropWhile p).getLast? = l.getLast? := by
  intro l
  induction l with
  | nil => intro h; simp at h
  | cons a t ih =>
    intro h
    rw [List.dropWhile_cons] at h ⊢
    by_cases hp : p a = true
    · rw [if_pos hp] at h ⊢
      rw [ih h]
      cases t with
      | nil => simp at h
      | cons b t' => rw [List.getLast?_cons_cons]
    · rw [if_neg hp]

lemma stripEnds_head (l : List Char) :
    ∀ c, (stripEnds l).head? = some c → isWordChar c = true := by
  intro c h
  unfold stripEnds at h
  rw [List.head?_reverse] at h
  have hne : (l.dropWhile (fun c => !isWordChar c)).reverse.dropWhile
      (fun c => !isWordChar c) ≠ [] := by
    intro he; rw [he] at h; cases h
  rw [getLast_dropWhile _ _ hne, List.getLast?_reverse] at h
  have := head_dropWhile _ l c h
  simpa using this

lemma stripEnds_getLast (l : List Char) :
    ∀ c, (stripEnds l).getLast? = some c → isWordChar c = true := by
  intro c h
  unfold stripEnds at h
  rw [List.getLast?_reverse] at h
  have := head_dropWhile _ _ _ h
  simpa using this

lemma stripEnds_mem {l : List Char} {c : Char} (h : c ∈ stripEnds l) : c ∈ l := by
  unfold stripEnds at h
  rw [List.mem_reverse] at h
  have h1 := mem_of_mem_dropWhile _ _ _ h
  rw [List.mem_reverse] at h1
  exact mem_of_mem_dropWhile _ _ _ h1

lemma word_not_space {c : Char} (h : isWordChar c = true) : jsSpace c = false := by
  by_contra hc
  rw [Bool.not_eq_false] at hc
  unfold jsSpace at hc
  simp only [Bool.or_eq_true, beq_iff_eq] at hc
  rcases hc with (((((h1 | h1) | h1) | h1) | h1) | h1) | h1 <;>
    (subst h1; exact absurd h (by decide))

lemma jsTrim_of_word_ends (l : List Char)
    (h1 : ∀ c, l.head? = some c → isWordChar c = true)
    (h2 : ∀ c, l.getLast? = some c → isWordChar c = true) :
    jsTrim l = l := by
  unfold jsTrim
  rw [dropWhile_of_head_false jsSpace l
    (fun c hc => word_not_space (h1 c hc))]
  rw [dropWhile_of_head_false jsSpace l.reverse (by
    intro c hc
    rw [List.head?_reverse] at hc
    exact word_not_space (h2 c hc))]
  exact List.reverse_reverse l

lemma stripEnds_of_word_ends (l : List Char)
    (h1 : ∀ c, l.head? = some c → isWordChar c = true)
    (h2 : ∀ c, l.getLast? = some c → isWordChar c = true) :
    stripEnds l = l := by
  unfold stripEnds
  rw [dropWhile_of_head_false _ l (by intro c hc; simp [h1 c hc])]
  rw [dropWhile_of_head_false _ l.reverse (by
    intro c hc
    rw [List.head?_reverse] at hc
    simp [h2 c hc])]
  exact List.reverse_reverse l

lemma collapse_mem_space : ∀ (l : List Char) (b : Bool) (c : Char),
    c ∈ collapseWsAux b l → jsSpace c = true → c = ' ' := by
  intro l
  induction l with
  | nil => intro b c hc _; cases hc
  | cons a t ih =>
    intro b c hc hs
    unfold collapseWsAux at hc
    by_cases ha : jsSpace a = true
    · rw [if_pos ha] at hc
      cases b with
      | true => exact ih true c (by simpa using hc) hs
      | false =>
        simp only [Bool.false_eq_true, if_false] at hc
        rcases List.mem_cons.mp hc with hc | hc
        · exact hc
        · exact ih true c hc hs
    · rw [if_neg ha] at hc
      rcases List.mem_cons.mp hc with hc | hc
      · subst hc; exact absurd hs (by simp [ha])
      · exact ih false c hc hs

lemma collapse_head_true : ∀ (l : List Char) (c : Char),
    (collapseWsAux true l).head? = some c → jsSpace c = false := by
  intro l
  induction l with
  | nil => intro c h; cases h
  | cons a t ih =>
    intro c h
    unfold collapseWsAux at h
    by_cases ha : jsSpace a = true
    · rw [if_pos ha] at h
      simp only [if_pos rfl] at h
      exact ih c h
    · rw [if_neg ha] at h
      have : a = c := by simpa using h
      subst this
      simpa using ha

lemma collapse_chain : ∀ (l : List Char) (b : Bool),
    noAdjacentWs (collapseWsAux b l) := by
  intro l
  induction l with
  | nil => intro b; exact List.chain'_nil
  | cons a t ih =>
    intro b
    unfold collapseWsAux noAdjacentWs
    by_cases ha : jsSpace a = true
    · rw [if_pos ha]
      cases b with
      | true =>
        rw [if_pos rfl]
        exact ih true
      | false =>
        simp only [Bool.false_eq_true, if_false]
        rw [List.chain'_cons']
        refine ⟨?_, ih true⟩
        intro y hy
        have := collapse_head_true t y (Option.mem_def.mp hy)
        intro hcon
        rw [this] at hcon
        exact absurd hcon.2 (by simp)
    · rw [if_neg ha]
      rw [List.chain'_cons']
      refine ⟨?_, ih false⟩
      intro y _ hcon
      exact absurd hcon.1 (by simp [ha])

lemma collapse_true_eq_false (l : List Char)
    (h : ∀ c, l.head? = some c → jsSpace c = false) :
    collapseWsAux true l = collapseWsAux false l := by
  cases l with
  | nil => rfl
  | cons a t =>
    have ha : jsSpace a = false := h a rfl
    unfold collapseWsAux
    rw [if_neg (by simp [ha]), if_neg (by simp [ha])]

lemma collapse_id : ∀ (l : List Char),
    (∀ c ∈ l, jsSpace c = true → c = ' ') → noAdjacentWs l →
    collapseWsAux false l = l := by
  intro l
  induction l with
  | nil => intro _ _; rfl
  | cons a t ih =>
    intro hmem hch
    unfold collapseWsAux
    by_cases ha : jsSpace a = true
    · rw [if_pos ha]
      have ha' : a = ' ' := hmem a (List.mem_cons_self a t) ha
      simp only [Bool.false_eq_true, if_false]
      have hhead : ∀ c, t.head? = some c → jsSpace c = false := by
        intro c hc
        have hsplit := (List.chain'_cons'.mp hch).1 c (Option.mem_def.mpr hc)
        cases hjs : jsSpace c
        · rfl
        · exact absurd ⟨ha, hjs⟩ hsplit
      rw [collapse_true_eq_false t hhead,
        ih (fun c hc => hmem c (List.mem_cons_of_mem a hc)) (List.Chain'.tail hch),
        ha']
    · rw [if_neg ha,
        ih (fun c hc => hmem c (List.mem_cons_of_mem a hc)) (List.Chain'.tail hch)]

lemma chain'_dropWhile {R : Char → Char → Prop} (p : Char → Bool) :
    ∀ (l : List Char), List.Chain' R l → List.Chain' R (l.dropWhile p) := by
  intro l
  induction l with
  | nil => intro h; exact h
  | cons a t ih =>
    intro h
    rw [List.dropWhile_cons]
    by_cases hp : p a = true
    · rw [if_pos hp]; exact ih (List.Chain'.tail h)
    · rw [if_neg hp]; exact h

lemma noAdjacentWs_reverse {l : List Char} (h : noAdjacentWs l) :
    noAdjacentWs l.reverse := by
  unfold noAdjacentWs at *
  rw [List.chain'_reverse]
  exact List.Chain'.imp (fun a b hab hba => hab ⟨hba.2, hba.1⟩) h

lemma stripEnds_noAdj {l : List Char} (h : noAdjacentWs l) :
    noAdjacentWs (stripEnds l) := by
  unfold stripEnds
  exact noAdjacentWs_reverse
    (chain'_dropWhile _ _ (noAdjacentWs_reverse (chain'_dropWhile _ _ h)))

lemma cleanText_eq_strip (s : String) :
    cleanText s = String.mk (stripEnds (collapseWs s.data)) := by
  unfold cleanText
  congr 1
  exact jsTrim_of_word_ends _ (stripEnds_head _) (stripEnds_getLast _)

/-- C10: `cleanText` is idempotent, its output never has a leading or
trailing non-word character, and its output never contains two consecutive
whitespace characters. -/
theorem C10_cleanText_idempotent :
    (∀ s : String, cleanText (cleanText s) = cleanText s) ∧
    (∀ s : String, ∀ c, ((cleanText s).data).head? = some c → isWordChar c = true) ∧
    (∀ s : String, ∀ c, ((cleanText s).data).getLast? = some c → isWordChar c = true) ∧
    (∀ s : String, noAdjacentWs (cleanText s).data) := by
  have hdata : ∀ s : String, (cleanText s).data = stripEnds (collapseWs s.data) := by
    intro s; rw [cleanText_eq_strip]
  refine ⟨?_, ?_, ?_, ?_⟩
  · intro s
    have h1 : (cleanText s).data = stripEnds (collapseWs s.data) := hdata s
    have hmem : ∀ c ∈ stripEnds (collapseWs s.data), jsSpace c = true → c = ' ' := by
      intro c hc hs
      exact collapse_mem_space s.data false c (stripEnds_mem hc) hs
    have hch : noAdjacentWs (stripEnds (collapseWs s.data)) :=
      stripEnds_noAdj (collapse_chain s.data false)
    have hcoll : collapseWs (stripEnds (collapseWs s.data)) =
        stripEnds (collapseWs s.data) := collapse_id _ hmem hch
    have hstrip : stripEnds (stripEnds (collapseWs s.data)) =
        stripEnds (collapseWs s.data) :=
      stripEnds_of_word_ends _ (stripEnds_head _) (stripEnds_getLast _)
    have htrim : jsTrim (stripEnds (collapseWs s.data)) =
        stripEnds (collapseWs s.data) :=
      jsTrim_of_word_ends _ (stripEnds_head _) (stripEnds_getLast _)
    calc cleanText (cleanText s)
        = String.mk (jsTrim (stripEnds (collapseWs (cleanText s).data))) := rfl
      _ = String.mk (jsTrim (stripEnds (collapseWs (stripEnds (collapseWs s.data))))) := by
          rw [h1]
      _ = String.mk (stripEnds (collapseWs s.data)) := by rw [hcoll, hstrip, htrim]
      _ = cleanText s := (cleanText_eq_strip s).symm
  · intro s
    rw [hdata s]
    exact stripEnds_head _
  · intro s
    rw [hdata s]
    exact stripEnds_getLast _
  · intro s
    rw [hdata s]
    exact stripEnds_noAdj (collapse_chain s.data false)

/-- C10 witness: the theorem applied to a concrete padded string — cleaning
it twice gives the same result as cleaning it once, its first character is
a word character, and no two consecutive whitespace characters remain. -/
theorem C10_cleanText_idempotent_witness :
    cleanText (cleanText "  --hello,   world!?  ") = cleanText "  --hello,   world!?  " ∧
    isWordChar 'h' = true ∧
    noAdjacentWs (cleanText "  --hello,   world!?  ").data := by
  refine ⟨C10_cleanText_idempotent.1 _, ?_, C10_cleanText_idempotent.2.2.2 _⟩
  exact C10_cleanText_idempotent.2.1 "  --hello,   world!?  " 'h' (by rfl)

/-! ### Scraping engine theorems -/

lemma attachImage_title (download : String → Except String String)
    (md : ImageMetadataM) : (attachImage download md).title = md.title := by
  unfold attachImage
  split_ifs
  · cases download md.imageUrl <;> rfl
  · rfl

lemma attachImage_imageUrl (download : String → Except String String)
    (md : ImageMetadataM) : (attachImage download md).imageUrl = md.imageUrl := by
  unfold attachImage
  split_ifs
  · cases download md.imageUrl <;> rfl
  · rfl

lemma attachImage_of_error (download : String → Except String String)
    (md : ImageMetadataM) (e : String) (h : download md.imageUrl = Except.error e) :
    attachImage download md = md := by
  unfold attachImage
  split_ifs
  · rw [h]
  · rfl

/-- C4: a scrape whose extracted metadata has both an empty title and an
empty image URL is reported as a failure envelope with the extraction-failure
message, even though the fetch succeeded; conversely, every success envelope
carries metadata whose title or image URL is non-empty. -/
theorem C4_minimal_content :
    (∀ url urlValid extract download elapsed md,
        scrapeStockURL url urlValid extract download elapsed =
          ⟨true, some md, none, elapsed⟩ →
        md.title ≠ "" ∨ md.imageUrl ≠ "") ∧
    (∀ url extract download elapsed platform md,
        identifyPlatform url = Except.ok platform →
        platformScrapersKeys.contains platform = true →
        extract platform = Except.ok md →
        md.title = "" → md.imageUrl = "" →
        scrapeStockURL url true extract download elapsed =
          ⟨false, none, some extractionFailureMessage, elapsed⟩) := by
  constructor
  · intro url urlValid extract download elapsed md h
    unfold scrapeStockURL at h
    by_cases hv : urlValid = false
    · rw [if_pos hv] at h; simp at h
    · rw [if_neg hv] at h
      cases hid : identifyPlatform url with
      | error e => rw [hid] at h; simp at h
      | ok platform =>
        rw [hid] at h
        dsimp only at h
        by_cases hs : platformScrapersKeys.contains platform = false
        · rw [if_pos hs] at h; simp at h
        · rw [if_neg hs] at h
          cases hex : extract platform with
          | error e => rw [hex] at h; simp at h
          | ok md0 =>
            rw [hex] at h
            dsimp only at h
            by_cases hm : md0.title = "" ∧ md0.imageUrl = ""
            · rw [if_pos hm] at h; simp at h
            · rw [if_neg hm] at h
              simp only [ScrapingResult.mk.injEq, Option.some.injEq, true_and,
                and_true] at h
              rcases not_and_or.mp hm with hm | hm
              · left
                rw [← h, attachImage_title]
                exact hm
              · right
                rw [← h, attachImage_imageUrl]
                exact hm
  · intro url extract download elapsed platform md hid hs hex ht hi
    unfold scrapeStockURL
    rw [if_neg (by simp), hid]
    dsimp only
    rw [if_neg (by rw [hs]; decide), hex]
    dsimp only
    rw [if_pos ⟨ht, hi⟩]

/-- C4 witness: a scrape of a mock URL whose extraction yields neither a
title nor an image URL returns the failure envelope. -/
theorem C4_minimal_content_witness :
    scrapeStockURL "https://example.com/photo/1" true (fun _ => Except.ok mdEmpty)
      (fun _ => Except.error "net") 5 =
      ⟨false, none, some extractionFailureMessage, 5⟩ :=
  C4_minimal_content.2 "https://example.com/photo/1" (fun _ => Except.ok mdEmpty)
    (fun _ => Except.error "net") 5 "mock" mdEmpty rfl rfl rfl rfl rfl

/-- C5: an image-download failure is non-fatal — whenever extraction
succeeded with minimal content and the download of the discovered image URL
errors, the scrape still returns a success envelope with the metadata
unchanged (in particular no `imageBase64` is attached); and the byte-size
ceiling of `downloadAndConvertImage` rejects any over-sized body with an
error, before the transcode result matters. -/
theorem C5_image_failure_nonfatal :
    (∀ url extract download elapsed platform md e,
        identifyPlatform url = Except.ok platform →
        platformScrapersKeys.contains platform = true →
        extract platform = Except.ok md →
        ¬(md.title = "" ∧ md.imageUrl = "") →
        download md.imageUrl = Except.error e →
        scrapeStockURL url true extract download elapsed =
          ⟨true, some md, none, elapsed⟩) ∧
    (∀ (transcoded : Except String String) (sz : Nat),
        maxImageContentLength < sz →
        downloadAndConvertImage sz transcoded =
          Except.error
            "Failed to download or process image: maxContentLength size of 52428800 exceeded") := by
  constructor
  · intro url extract download elapsed platform md e hid hs hex hm hdl
    unfold scrapeStockURL
    rw [if_neg (by simp), hid]
    dsimp only
    rw [if_neg (by rw [hs]; decide), hex]
    dsimp only
    rw [if_neg hm, attachImage_of_error download md e hdl]
  · intro transcoded sz hsz
    unfold downloadAndConvertImage
    rw [if_pos hsz]

/-- C5 witness: a 200MB image is rejected by the 50MB ceiling and the parent
scrape still succeeds with the metadata and no `imageBase64`. -/
theorem C5_image_failure_nonfatal_witness :
    downloadAndConvertImage (200 * 1024 * 1024) (Except.ok "ZZZ") =
      Except.error
        "Failed to download or process image: maxContentLength size of 52428800 exceeded" ∧
    scrapeStockURL "https://example.com/photo/1" true (fun _ => Except.ok mdWithImage)
      (fun _ => downloadAndConvertImage (200 * 1024 * 1024) (Except.ok "ZZZ")) 7 =
      ⟨true, some mdWithImage, none, 7⟩ ∧
    mdWithImage.imageBase64 = none := by
  refine ⟨C5_image_failure_nonfatal.2 (Except.ok "ZZZ") (200 * 1024 * 1024) (by decide), ?_, rfl⟩
  exact C5_image_failure_nonfatal.1 "https://example.com/photo/1"
    (fun _ => Except.ok mdWithImage)
    (fun _ => downloadAndConvertImage (200 * 1024 * 1024) (Except.ok "ZZZ")) 7 "mock"
    mdWithImage
    "Failed to download or process image: maxContentLength size of 52428800 exceeded"
    rfl rfl rfl (by simp [mdWithImage]) (by rfl)

/-! ### AI provider manager theorems -/

/-- C6: `generatePrompt` rejects a blank API key and missing image data
before dispatching to any adapter — no vendor HTTP call is attempted — and
wraps both outcomes uniformly: every call yields an envelope carrying the
elapsed processing time, with `success := true` and the adapter's prompt on
success, or `success := false` and an error message on failure; the
function is total, so no exception escapes it. -/
theorem C6_generatePrompt_guards :
    (∀ provider apiKey imageBase64 adapter elapsed,
        jsStrTrim apiKey = "" ∨ imageBase64 = "" →
        (generatePromptM provider apiKey imageBase64 adapter elapsed).2 = false ∧
        (generatePromptM provider apiKey imageBase64 adapter elapsed).1.success = false ∧
        (generatePromptM provider apiKey imageBase64 adapter elapsed).1.error.isSome
          = true) ∧
    (∀ provider apiKey imageBase64 adapter elapsed,
        (generatePromptM provider apiKey imageBase64 adapter elapsed).1.processingTime =
          elapsed) ∧
    (∀ provider apiKey imageBase64 p vs conf elapsed,
        registeredProviders.contains provider = true →
        jsStrTrim apiKey ≠ "" → imageBase64 ≠ "" →
        generatePromptM provider apiKey imageBase64 (Except.ok (p, vs, conf)) elapsed =
          (⟨true, p, vs, conf, elapsed, none⟩, true)) ∧
    (∀ provider apiKey imageBase64 e elapsed,
        registeredProviders.contains provider = true →
        jsStrTrim apiKey ≠ "" → imageBase64 ≠ "" →
        generatePromptM provider apiKey imageBase64 (Except.error e) elapsed =
          (⟨false, "", [], 0, elapsed, some e⟩, true)) := by
  refine ⟨?_, ?_, ?_, ?_⟩
  · intro provider apiKey imageBase64 adapter elapsed h
    unfold generatePromptM
    split_ifs with h1 h2 h3
    · exact ⟨rfl, rfl, rfl⟩
    · exact ⟨rfl, rfl, rfl⟩
    · exact ⟨rfl, rfl, rfl⟩
    · rcases h with h | h
      · exact absurd h h2
      · exact absurd h h3
  · intro provider apiKey imageBase64 adapter elapsed
    unfold generatePromptM
    split_ifs <;> first | rfl | (cases adapter <;> rfl)
  · intro provider apiKey imageBase64 p vs conf elapsed hreg hkey himg
    unfold generatePromptM
    rw [if_neg (by rw [hreg]; decide), if_neg hkey, if_neg himg]
  · intro provider apiKey imageBase64 e elapsed hreg hkey himg
    unfold generatePromptM
    rw [if_neg (by rw [hreg]; decide), if_neg hkey, if_neg himg]

/-- C6 witness: the empty API key is rejected without any dispatch, and a
successful adapter call is wrapped uniformly with the elapsed time. -/
theorem C6_generatePrompt_guards_witness :
    (generatePromptM "openai" "" "img64" (Except.ok ("a prompt", [], 4/5)) 12).2 = false ∧
    (generatePromptM "openai" "" "img64"
      (Except.ok ("a prompt", [], 4/5)) 12).1.success = false ∧
    generatePromptM "openai" "sk-key" "img64" (Except.ok ("a prompt", [], 4/5)) 12 =
      (⟨true, "a prompt", [], 4/5, 12, none⟩, true) := by
  refine ⟨?_, ?_, ?_⟩
  · exact (C6_generatePrompt_guards.1 "openai" "" "img64"
      (Except.ok ("a prompt", [], 4/5)) 12 (Or.inl rfl)).1
  · exact (C6_generatePrompt_guards.1 "openai" "" "img64"
      (Except.ok ("a prompt", [], 4/5)) 12 (Or.inl rfl)).2.1
  · exact C6_generatePrompt_guards.2.2.1 "openai" "sk-key" "img64" "a prompt" [] (4/5) 12
      rfl (by decide) (by decide)

/-- C7: the manager's `validateApiKey` applies the per-vendor key-format
check first: for every registered provider, a key failing the format check
is rejected (`isValid := false` with a format error) without any network
call; only a key passing the format check reaches the adapter's network
validation, whose `{isValid, error}` outcome is passed through; and the
OpenAI adapter maps a revoked/invalid key response to `isValid := false`
with the vendor-specific message. -/
theorem C7_validateApiKey_format_first :
    (∀ provider apiKey adapterValidate,
        registeredProviders.contains provider = true →
        validateApiKeyFormat provider apiKey = false →
        managerValidateApiKey provider apiKey adapterValidate =
          (⟨true, false, some ("Invalid " ++ provider ++ " API key format"), provider⟩,
            false)) ∧
    (∀ provider apiKey adapterValidate,
        registeredProviders.contains provider = true →
        validateApiKeyFormat provider apiKey = true →
        managerValidateApiKey provider apiKey adapterValidate =
          (⟨true, adapterValidate.isValid, adapterValidate.error, provider⟩, true)) ∧
    (∀ e : OpenAIApiError, e.code = some "invalid_api_key" →
        openaiValidateApiKey (OpenAIValidationOutcome.httpError e) =
          ⟨false, some "Invalid OpenAI API key"⟩) := by
  refine ⟨?_, ?_, ?_⟩
  · intro provider apiKey adapterValidate hreg hfmt
    unfold managerValidateApiKey
    rw [if_neg (by rw [hreg]; decide), if_pos hfmt]
  · intro provider apiKey adapterValidate hreg hfmt
    unfold managerValidateApiKey
    rw [if_neg (by rw [hreg]; decide), if_neg (by rw [hfmt]; decide)]
  · intro e he
    unfold openaiValidateApiKey
    dsimp only
    rw [if_pos he]

/-- C7 witness: the malformed key `"short"` is rejected with a format error
and no network call; the well-formed key `"sk-abcdefghij"` reaches the
network, and a revoked-key vendor response yields `isValid := false` with
the vendor-specific message. -/
theorem C7_validateApiKey_format_first_witness :
    managerValidateApiKey "openai" "short"
        (openaiValidateApiKey (OpenAIValidationOutcome.httpError
          ⟨some "invalid_api_key", some "Incorrect API key provided"⟩)) =
      (⟨true, false, some "Invalid openai API key format", "openai"⟩, false) ∧
    managerValidateApiKey "openai" "sk-abcdefghij"
        (openaiValidateApiKey (OpenAIValidationOutcome.httpError
          ⟨some "invalid_api_key", some "Incorrect API key provided"⟩)) =
      (⟨true, false, some "Invalid OpenAI API key", "openai"⟩, true) := by
  constructor
  · exact C7_validateApiKey_format_first.1 "openai" "short" _ rfl (by decide)
  · have hmap := C7_validateApiKey_format_first.2.2
      ⟨some "invalid_api_key", some "Incorrect API key provided"⟩ rfl
    have h2 := C7_validateApiKey_format_first.2.1 "openai" "sk-abcdefghij"
      (openaiValidateApiKey (OpenAIValidationOutcome.httpError
        ⟨some "invalid_api_key", some "Incorrect API key provided"⟩)) rfl (by decide)
    rw [h2, hmap]

/-- C9: `openai-fast` is accepted by the request schema and registered in
the adapter registry, but the key-format pattern table has no entry for it,
so the manager's `validateApiKey` rejects every key of that provider with
the format error `Invalid openai-fast API key format` and never makes a
network call. -/
theorem C9_openai_fast_never_validates :
    registeredProviders.contains "openai-fast" = true ∧
    validateApiKeySchemaProviders.contains "openai-fast" = true ∧
    formatPatternProviders.contains "openai-fast" = false ∧
    (∀ apiKey adapterValidate,
        managerValidateApiKey "openai-fast" apiKey adapterValidate =
          (⟨true, false, some "Invalid openai-fast API key format", "openai-fast"⟩,
            false)) := by
  refine ⟨rfl, rfl, rfl, ?_⟩
  intro apiKey adapterValidate
  have hfmt : validateApiKeyFormat "openai-fast" apiKey = false := by
    unfold validateApiKeyFormat
    split_ifs
    · rfl
    · rfl
  unfold managerValidateApiKey
  rw [if_neg (by decide), if_pos hfmt]
  rfl

/-! ### Provider adapter theorems -/

lemma clamp01_bounds (x : ℚ) : 0 ≤ min (max x 0) 1 ∧ min (max x 0) 1 ≤ 1 :=
  ⟨le_min (le_max_right x 0) zero_le_one, min_le_right _ _⟩

lemma min1_bounds {x : ℚ} (h : 0 ≤ x) : 0 ≤ min x 1 ∧ min x 1 ≤ 1 :=
  ⟨le_min h zero_le_one, min_le_right _ _⟩

/-- C8: every adapter returns at most 2 variations, and every adapter's
confidence score — a deterministic function of the vendor response — lies
in the closed interval [0, 1]. -/
theorem C8_adapter_response_bounds :
    (∀ content, (openaiVariations content).length ≤ 2) ∧
    (∀ content, (openaiFastVariations content).length ≤ 2) ∧
    geminiVariations.length ≤ 2 ∧
    claudeVariations.length ≤ 2 ∧
    (∀ data, 0 ≤ openaiCalculateConfidence data ∧ openaiCalculateConfidence data ≤ 1) ∧
    (∀ data, 0 ≤ openaiFastCalculateConfidence data ∧
      openaiFastCalculateConfidence data ≤ 1) ∧
    (∀ cand, 0 ≤ geminiCalculateConfidence cand ∧ geminiCalculateConfidence cand ≤ 1) ∧
    (∀ data, 0 ≤ claudeCalculateConfidence data ∧ claudeCalculateConfidence data ≤ 1) := by
  refine ⟨?_, ?_, by decide, by decide, ?_, ?_, ?_, ?_⟩
  · intro content
    unfold openaiVariations
    cases content with
    | none => simp
    | some text =>
      dsimp only
      split_ifs
      · simp
      · rw [List.length_take]
        exact min_le_left _ _
  · intro content
    unfold openaiFastVariations
    cases content with
    | none => simp
    | some text =>
      dsimp only
      split_ifs <;> simp
  · intro data
    unfold openaiCalculateConfidence
    cases hc : data.choices with
    | nil => norm_num
    | cons choice rest =>
      dsimp only
      refine min1_bounds ?_
      split_ifs <;> norm_num
  · intro data
    unfold openaiFastCalculateConfidence
    cases hc : data.choices with
    | nil => norm_num
    | cons choice rest =>
      dsimp only
      split_ifs <;> norm_num
  · intro cand
    unfold geminiCalculateConfidence
    exact clamp01_bounds _
  · intro data
    unfold claudeCalculateConfidence
    exact clamp01_bounds _

end LinkX
